import Mathlib

/-!
Shallow embedding, in Lean 4, of the booking-number sequence allocator
(`Counter` model, `getNextBookingNumber`) and of the validation helpers
(`sanitizeString`, `paginationQuerySchema` / `parseInt`) of the
sih-2025-jharkhand-tourism-backend repository, together with theorems
settling the specification claims about them.

Conventions of the embedding:
* The MongoDB `counters` collection is a list of `Counter` documents,
  threaded explicitly through each operation (stateful code becomes
  explicit state passing).
* JavaScript numbers that the code only ever uses as non-negative
  integers (the `seq` field, years) are embedded as `Nat`.
* The wall clock (`new Date().getFullYear()`) is an explicit `year`
  parameter.
* A fallible store call is embedded with an explicit availability flag
  and an `Except` result.
-/

/-- Embedding of the `ICounter` document: `_id` is the counter name
(e.g. `'bookingNumber'`) and `seq` the current sequence value. -/
structure Counter where
  _id : String
  seq : Nat
deriving DecidableEq

/-- Embedding of the error surfaced when the persistent store is
unreachable or the conditional increment fails.  Modelled from the spec:
the repository code under `src/` only propagates the store client's
rejection; the spec names that failure `StorageUnavailable`. -/
inductive StoreError where
  | storageUnavailable
deriving DecidableEq

/-- Lookup of the document with the given `_id` in the collection
(the query `{ _id: k }`). -/
def findCounter (k : String) : List Counter → Option Counter
  | [] => none
  | c :: cs => if c._id = k then some c else findCounter k cs

/-- Embedding of
`CounterModel.findOneAndUpdate({ _id: k }, { $inc: { seq: 1 } }, { new: true, upsert: true })`.

If a document with `_id = k` exists, its `seq` is atomically incremented
and (because of `new: true`) the updated document is returned.  If no
document exists, the upsert inserts one built from the query's equality
condition plus the update applied to a fresh document: `$inc` on a
missing field seeds it from `0`, so the inserted document has `seq = 1`.
The schema default `seq: 1000` is NOT applied on this insert: mongoose's
`setDefaultsOnInsert` skips every path already modified by the update
(here `seq`, modified by `$inc`), since `$setOnInsert` and `$inc` on the
same path would be a MongoDB path conflict. -/
def findOneAndUpdate (k : String) : List Counter → Counter × List Counter
  | [] => (⟨k, 1⟩, [⟨k, 1⟩])
  | c :: cs =>
    if c._id = k then
      ({ c with seq := c.seq + 1 }, { c with seq := c.seq + 1 } :: cs)
    else
      let r := findOneAndUpdate k cs
      (r.1, c :: r.2)

/-- The `seq` currently stored under key `k`, with `0` for a missing
document (the value `$inc` seeds from). -/
def currentSeq (k : String) (db : List Counter) : Nat :=
  match findCounter k db with
  | some c => c.seq
  | none => 0

/-- Embedding of JavaScript `String.prototype.padStart` for a
single-character pad string: if the target length does not exceed the
current length the string is returned unchanged, otherwise copies of the
pad character are prepended up to the target length. -/
def padStart (s : String) (targetLength : Nat) (pad : Char) : String :=
  if targetLength ≤ s.length then s
  else String.mk (List.replicate (targetLength - s.length) pad) ++ s

/-- Embedding of the template literal `JY-${year}-${sequenceNumber}`
(line 62 of the Counter model). -/
def bookingTemplate (year : Nat) (sequenceNumber : String) : String :=
  ("JY-") ++ Nat.repr year ++ ("-") ++ sequenceNumber

/-- Embedding of `getNextBookingNumber`.  `avail` models whether the
persistent store is reachable: when it is, the atomic
`findOneAndUpdate` runs and the formatted booking number is returned
together with the updated collection; when it is not, the `await`ed
call rejects, the async function rejects with the storage error, and
the collection is untouched. -/
def getNextBookingNumber (avail : Bool) (year : Nat) (db : List Counter) :
    Except StoreError String × List Counter :=
  if avail then
    let counter := findOneAndUpdate ("bookingNumber") db
    (Except.ok (bookingTemplate year (padStart (Nat.repr counter.1.seq) 6 '0')), counter.2)
  else
    (Except.error StoreError.storageUnavailable, db)

/-- A trace of `n` successive atomic allocations against the store,
collecting the numeric sequence value returned by each call (the `seq`
of the document returned by `findOneAndUpdate`, which is the numeric
component of the booking number each call formats).  Because the store
serializes the per-key conditional increments (linearizability), every
interleaving of `n` concurrent calls is observationally this sequential
composition. -/
def allocSeqs : Nat → List Counter → List Nat × List Counter
  | 0, db => ([], db)
  | n + 1, db =>
    let s := findOneAndUpdate ("bookingNumber") db
    let r := allocSeqs n s.2
    (s.1.seq :: r.1, r.2)

/-- Helper: the document returned by the increment-upsert (with
`new: true`) carries the key and the post-increment sequence value. -/
theorem findOneAndUpdate_fst (k : String) (db : List Counter) :
    (findOneAndUpdate k db).1 = ⟨k, currentSeq k db + 1⟩ := by
  induction db with
  | nil => rfl
  | cons c cs ih =>
    by_cases h : c._id = k
    · simp [findOneAndUpdate, currentSeq, findCounter, h]
    · simp [findOneAndUpdate, currentSeq, findCounter, h] at ih ⊢
      exact ih

/-- Helper: after the increment-upsert the stored document under `k`
exists and holds the post-increment sequence value. -/
theorem findCounter_findOneAndUpdate (k : String) (db : List Counter) :
    findCounter k (findOneAndUpdate k db).2 = some ⟨k, currentSeq k db + 1⟩ := by
  induction db with
  | nil => simp [findOneAndUpdate, findCounter, currentSeq]
  | cons c cs ih =>
    by_cases h : c._id = k
    · simp [findOneAndUpdate, findCounter, currentSeq, h]
    · simp [findOneAndUpdate, findCounter, currentSeq, h] at ih ⊢
      exact ih

/-- Helper: the increment-upsert on key `k` does not touch documents
stored under any other key. -/
theorem findCounter_findOneAndUpdate_ne (k k' : String) (db : List Counter) (h : k' ≠ k) :
    findCounter k' (findOneAndUpdate k db).2 = findCounter k' db := by
  induction db with
  | nil => simp [findOneAndUpdate, findCounter, Ne.symm h]
  | cons c cs ih =>
    by_cases hc : c._id = k
    · have hck : ¬c._id = k' := by rw [hc]; exact Ne.symm h
      simp [findOneAndUpdate, findCounter, hc, Ne.symm h, hck]
    · by_cases hck : c._id = k'
      · simp [findOneAndUpdate, findCounter, hc, hck, h]
      · simp [findOneAndUpdate, findCounter, hc, hck]
        exact ih

/-- Helper: a document found under key `k` has `_id = k`. -/
theorem findCounter_id (k : String) (db : List Counter) (c : Counter)
    (h : findCounter k db = some c) : c._id = k := by
  induction db with
  | nil => exact absurd h (by simp [findCounter])
  | cons d ds ih =>
    by_cases hd : d._id = k
    · have : d = c := by simpa [findCounter, hd] using h
      rw [← this, hd]
    · exact ih (by simpa [findCounter, hd] using h)

/-- Helper: a trace of `n` allocations returns the `n` consecutive
values following the sequence value stored when the trace starts. -/
theorem allocSeqs_fst (n : Nat) (db : List Counter) :
    (allocSeqs n db).1
      = (List.range n).map (fun i => currentSeq ("bookingNumber") db + 1 + i) := by
  induction n generalizing db with
  | zero => simp [allocSeqs]
  | succ n ih =>
    have h1 := findOneAndUpdate_fst ("bookingNumber") db
    have h2 : currentSeq ("bookingNumber") (findOneAndUpdate ("bookingNumber") db).2
        = currentSeq ("bookingNumber") db + 1 := by
      rw [currentSeq, findCounter_findOneAndUpdate]
    rw [List.range_succ_eq_map]
    simp only [allocSeqs, List.map_cons, List.map_map]
    rw [ih, h1, h2]
    refine congrArg₂ _ rfl ?_
    refine List.map_congr_left ?_
    intro a _
    simp [Function.comp, Nat.succ_eq_add_one]
    omega

/-- Helper: a trace of `n` allocations advances the stored sequence
value by exactly `n`. -/
theorem allocSeqs_final (n : Nat) (db : List Counter) (c : Counter)
    (h : findCounter ("bookingNumber") db = some c) :
    ∃ c', findCounter ("bookingNumber") (allocSeqs n db).2 = some c'
      ∧ c'.seq = c.seq + n := by
  induction n generalizing db c with
  | zero => exact ⟨c, h, rfl⟩
  | succ n ih =>
    have h2 := findCounter_findOneAndUpdate ("bookingNumber") db
    obtain ⟨c', hc', hs⟩ := ih (findOneAndUpdate ("bookingNumber") db).2
        ⟨("bookingNumber"), currentSeq ("bookingNumber") db + 1⟩ h2
    refine ⟨c', ?_, ?_⟩
    · simpa [allocSeqs] using hc'
    · simp at hs
      rw [hs]
      simp [currentSeq, h]
      omega

/-- Helper: closed form of `padStart`, valid in both branches (when the
string is already long enough the replicate count is `0`). -/
theorem padStart_eq (s : String) (t : Nat) (c : Char) :
    padStart s t c = String.mk (List.replicate (t - s.length) c) ++ s := by
  unfold padStart
  split
  · next h =>
    rw [Nat.sub_eq_zero_of_le h]
    cases s with
    | mk l => rfl
  · rfl

/-- Helper: `padStart` pads up to the target length and never shortens. -/
theorem padStart_length (s : String) (t : Nat) (c : Char) :
    (padStart s t c).length = max t s.length := by
  rw [padStart_eq]
  cases s with
  | mk l =>
    show (String.mk (List.replicate (t - l.length) c ++ l)).length = _
    simp [String.length]
    omega

/-- Claim C1 (settled against the code): the first-ever call to
`getNextBookingNumber` on a store in which no `'bookingNumber'` record
exists does NOT create the record with starting value `1000` and does
NOT return sequence value `1001`.  Evaluating the embedded code on the
empty collection (year 2025): the upsert inserts the record with
`seq = 1` (the schema default `1000` is skipped because `seq` is the
path modified by `$inc`), and the call returns `JY-2025-000001`. -/
theorem booking_number_first_call_starts_at_one :
    getNextBookingNumber true 2025 []
      = (Except.ok ("JY-2025-000001"), [⟨("bookingNumber"), 1⟩]) := rfl

/-- Claim C2: for `N` calls against a counter record holding `1000`,
serialized by the store's linearizable per-key conditional increment
(so every interleaving of the concurrent calls is observationally this
sequential trace), the returned numeric sequence values are exactly
`[1001, 1002, ..., 1000 + N]` — no duplicates, no gaps. -/
theorem alloc_returns_exact_range (n : Nat) (db : List Counter) (c : Counter)
    (h1 : findCounter ("bookingNumber") db = some c) (h2 : c.seq = 1000) :
    (allocSeqs n db).1 = (List.range n).map (fun i => 1001 + i)
      ∧ (allocSeqs n db).1.Nodup := by
  have hcur : currentSeq ("bookingNumber") db = 1000 := by
    simp [currentSeq, h1, h2]
  have hfst := allocSeqs_fst n db
  rw [hcur] at hfst
  constructor
  · exact hfst
  · rw [hfst]
    refine List.Nodup.map ?_ (List.nodup_range n)
    intro a b hab
    dsimp only at hab
    omega

/-- Witness for C2: three allocations against the record at `1000`
return `[1001, 1002, 1003]`. -/
theorem alloc_returns_exact_range_witness :
    findCounter ("bookingNumber") [⟨("bookingNumber"), 1000⟩] = some ⟨("bookingNumber"), 1000⟩
    ∧ ((allocSeqs 3 [⟨("bookingNumber"), 1000⟩]).1
          = (List.range 3).map (fun i => 1001 + i)
        ∧ (allocSeqs 3 [⟨("bookingNumber"), 1000⟩]).1.Nodup) :=
  ⟨rfl, alloc_returns_exact_range 3 _ _ rfl rfl⟩

/-- Claim C3: every string returned by `getNextBookingNumber` is the
template `JY-${year}-${sequenceNumber}` where the year is the wall-clock
year passed at call time and the sequence component is the
post-increment counter value (the value stored after the call) rendered
in decimal and left-padded with zeros to at least 6 characters. -/
theorem booking_number_format (year : Nat) (db : List Counter) :
    ∃ s,
      (getNextBookingNumber true year db).1
          = Except.ok (bookingTemplate year (padStart (Nat.repr s) 6 '0'))
      ∧ findCounter ("bookingNumber") (getNextBookingNumber true year db).2
          = some ⟨("bookingNumber"), s⟩
      ∧ 6 ≤ (padStart (Nat.repr s) 6 '0').length := by
  refine ⟨currentSeq ("bookingNumber") db + 1, ?_, ?_, ?_⟩
  · simp [getNextBookingNumber, findOneAndUpdate_fst]
  · simp [getNextBookingNumber, findCounter_findOneAndUpdate]
  · rw [padStart_length]
    exact Nat.le_max_left _ _

/-- Claim C4: over any trace of allocations the returned numeric
sequence values are pairwise strictly increasing (in particular two
back-to-back calls return strictly increasing values), and the stored
`seq` never decreases: any record present at the start is still present
at the end with a `seq` at least as large. -/
theorem alloc_strictly_increasing (n : Nat) (db : List Counter) :
    List.Pairwise (fun a b => a < b) (allocSeqs n db).1
    ∧ ∀ c, findCounter ("bookingNumber") db = some c →
        ∃ c', findCounter ("bookingNumber") (allocSeqs n db).2 = some c'
          ∧ c.seq ≤ c'.seq := by
  constructor
  · rw [allocSeqs_fst]
    refine List.Pairwise.map _ ?_ (List.pairwise_lt_range n)
    intro a b hab
    dsimp only
    omega
  · intro c hc
    obtain ⟨c', hc', hs⟩ := allocSeqs_final n db c hc
    exact ⟨c', hc', by omega⟩

/-- Witness for C4: two back-to-back allocations against the record at
`1000` return strictly increasing values and leave the stored `seq` at
least `1000`. -/
theorem alloc_strictly_increasing_witness :
    List.Pairwise (fun a b => a < b) (allocSeqs 2 [⟨("bookingNumber"), 1000⟩]).1
    ∧ ∃ c', findCounter ("bookingNumber") (allocSeqs 2 [⟨("bookingNumber"), 1000⟩]).2 = some c'
        ∧ (⟨("bookingNumber"), 1000⟩ : Counter).seq ≤ c'.seq :=
  ⟨(alloc_strictly_increasing 2 _).1,
    (alloc_strictly_increasing 2 _).2 ⟨("bookingNumber"), 1000⟩ rfl⟩

/-- Claim C5: when the persistent store is unreachable the call fails
with the `StorageUnavailable` error, no booking identifier is produced,
and the collection is left exactly as it was (the caller cannot observe
an increment). -/
theorem storage_unavailable_propagates (year : Nat) (db : List Counter) :
    getNextBookingNumber false year db
      = (Except.error StoreError.storageUnavailable, db) := rfl

/-- Claim C6: the numeric sequence component never resets at a year
boundary.  For two successive calls whose wall-clock years differ, the
second call's numeric sequence value is still strictly greater than the
first's (the counter key and increment are independent of the year). -/
theorem seq_not_reset_on_year_change (y1 y2 : Nat) (db : List Counter) (h : y1 ≠ y2) :
    ∃ s1 s2,
      (getNextBookingNumber true y1 db).1
          = Except.ok (bookingTemplate y1 (padStart (Nat.repr s1) 6 '0'))
      ∧ (getNextBookingNumber true y2 (getNextBookingNumber true y1 db).2).1
          = Except.ok (bookingTemplate y2 (padStart (Nat.repr s2) 6 '0'))
      ∧ s1 < s2 := by
  refine ⟨currentSeq ("bookingNumber") db + 1, currentSeq ("bookingNumber") db + 1 + 1,
    ?_, ?_, ?_⟩
  · simp [getNextBookingNumber, findOneAndUpdate_fst]
  · have h2 : currentSeq ("bookingNumber") (findOneAndUpdate ("bookingNumber") db).2
        = currentSeq ("bookingNumber") db + 1 := by
      simp [currentSeq, findCounter_findOneAndUpdate]
    simp [getNextBookingNumber, findOneAndUpdate_fst, h2]
  · omega

/-- Witness for C6: a call in year 2025 followed by one in year 2026
still returns strictly increasing sequence values. -/
theorem seq_not_reset_on_year_change_witness :
    (2025 : Nat) ≠ 2026
    ∧ ∃ s1 s2,
      (getNextBookingNumber true 2025 []).1
          = Except.ok (bookingTemplate 2025 (padStart (Nat.repr s1) 6 '0'))
      ∧ (getNextBookingNumber true 2026 (getNextBookingNumber true 2025 []).2).1
          = Except.ok (bookingTemplate 2026 (padStart (Nat.repr s2) 6 '0'))
      ∧ s1 < s2 :=
  ⟨by decide, seq_not_reset_on_year_change 2025 2026 [] (by decide)⟩

/-- Claim C7: the zero-padding of the numeric component never
truncates.  For every counter value `v`, the rendered component equals
`v`'s decimal representation prefixed by exactly `6 - digits(v)` zeros
(none when `v` already has 6 or more digits), so its length is
`max 6 digits(v)`: 6 characters when `v` has at most 6 digits, and the
full representation unchanged when it has more. -/
theorem padStart_never_truncates (v : Nat) :
    padStart (Nat.repr v) 6 '0'
        = String.mk (List.replicate (6 - (Nat.repr v).length) '0') ++ Nat.repr v
    ∧ (padStart (Nat.repr v) 6 '0').length = max 6 (Nat.repr v).length :=
  ⟨padStart_eq (Nat.repr v) 6 '0', padStart_length (Nat.repr v) 6 '0'⟩

/-- Claim C8: no operation of the allocator ever deletes the counter
record.  Any record present before a call is still present after it
with the same `_id` (only `seq` can change, the record having no other
field); a successful call leaves the record present even when it did
not exist before (upsert creation); and records under every other key
are untouched. -/
theorem counter_record_persists (avail : Bool) (year : Nat) (db : List Counter) :
    (∀ c, findCounter ("bookingNumber") db = some c →
      ∃ c', findCounter ("bookingNumber") (getNextBookingNumber avail year db).2 = some c'
        ∧ c'._id = c._id)
    ∧ (avail = true →
        ∃ c', findCounter ("bookingNumber") (getNextBookingNumber avail year db).2 = some c')
    ∧ ∀ k, k ≠ ("bookingNumber") →
        findCounter k (getNextBookingNumber avail year db).2 = findCounter k db := by
  cases avail with
  | false =>
    refine ⟨fun c hc => ⟨c, ?_, rfl⟩, fun h => absurd h (by simp), fun k _ => ?_⟩
    · simpa [getNextBookingNumber] using hc
    · simp [getNextBookingNumber]
  | true =>
    refine ⟨fun c hc => ?_, fun _ => ?_, fun k hk => ?_⟩
    · refine ⟨⟨("bookingNumber"), currentSeq ("bookingNumber") db + 1⟩, ?_, ?_⟩
      · simp [getNextBookingNumber, findCounter_findOneAndUpdate]
      · rw [findCounter_id _ db c hc]
    · exact ⟨⟨("bookingNumber"), currentSeq ("bookingNumber") db + 1⟩,
        by simp [getNextBookingNumber, findCounter_findOneAndUpdate]⟩
    · simp only [getNextBookingNumber, if_pos rfl]
      exact findCounter_findOneAndUpdate_ne _ k db hk

/-- Witness for C8: a successful call on a store holding the record at
`seq = 5` keeps the record (same `_id`) and leaves the record stored
under another key unchanged. -/
theorem counter_record_persists_witness :
    (∃ c', findCounter ("bookingNumber")
          (getNextBookingNumber true 2025 [⟨("bookingNumber"), 5⟩]).2 = some c'
        ∧ c'._id = (⟨("bookingNumber"), 5⟩ : Counter)._id)
    ∧ (∃ c', findCounter ("bookingNumber")
          (getNextBookingNumber true 2025 [⟨("bookingNumber"), 5⟩]).2 = some c')
    ∧ findCounter ("other") (getNextBookingNumber true 2025 [⟨("bookingNumber"), 5⟩]).2
        = findCounter ("other") [⟨("bookingNumber"), 5⟩] :=
  ⟨(counter_record_persists true 2025 _).1 ⟨("bookingNumber"), 5⟩ rfl,
   (counter_record_persists true 2025 _).2.1 rfl,
   (counter_record_persists true 2025 _).2.2 ("other") (by decide)⟩

/-- One global single-character replacement,
`input.replace(/c/g, r)` for a one-character pattern `c`: each
occurrence of `c` is replaced by the characters `r`, scanning left to
right without rescanning the replacement text. -/
def escAll (c : Char) (r : List Char) : List Char → List Char
  | [] => []
  | x :: xs => if x = c then r ++ escAll c r xs else x :: escAll c r xs

/-- The ECMAScript whitespace characters that `String.prototype.trim`
removes (TAB, LF, VT, FF, CR, SP, NBSP, LS, PS, BOM; written with
`Char.ofNat` code points). -/
def isJSWhitespace (c : Char) : Bool :=
  c == Char.ofNat 9 || c == Char.ofNat 10 || c == Char.ofNat 11 || c == Char.ofNat 12 ||
  c == Char.ofNat 13 || c == Char.ofNat 32 || c == Char.ofNat 160 ||
  c == Char.ofNat 8232 || c == Char.ofNat 8233 || c == Char.ofNat 65279

/-- Embedding of `String.prototype.trim`: remove leading and trailing
whitespace. -/
def trimJS (l : List Char) : List Char :=
  ((l.dropWhile isJSWhitespace).reverse.dropWhile isJSWhitespace).reverse

/-- The five chained global replacements of `sanitizeString`, in source
order: `<` → `&lt;`, `>` → `&gt;`, `"` → `&quot;`, `'` → `&#x27;`,
`/` → `&#x2F;` (pattern characters written with `Char.ofNat`:
60 `<`, 62 `>`, 34 double quote, 39 apostrophe, 47 slash). -/
def sanitizeChars (l : List Char) : List Char :=
  escAll (Char.ofNat 47) (("&#x2F;").data)
    (escAll (Char.ofNat 39) (("&#x27;").data)
      (escAll (Char.ofNat 34) (("&quot;").data)
        (escAll (Char.ofNat 62) (("&gt;").data)
          (escAll (Char.ofNat 60) (("&lt;").data) l))))

/-- Embedding of `sanitizeString` (validation.middleware.ts): the five
replacements followed by `.trim()`. -/
def sanitizeString (s : String) : String :=
  String.mk (trimJS (sanitizeChars s.data))

/-- Test for the five characters that `sanitizeString` replaces. -/
def isSpecial (x : Char) : Bool :=
  x == Char.ofNat 60 || x == Char.ofNat 62 || x == Char.ofNat 34 ||
  x == Char.ofNat 39 || x == Char.ofNat 47

/-- Helper: a character of `escAll c r l` comes from the replacement
text `r` or is a character of `l` other than `c`. -/
theorem mem_escAll {c x : Char} {r : List Char} :
    ∀ {l : List Char}, x ∈ escAll c r l → x ∈ r ∨ (x ∈ l ∧ x ≠ c)
  | [], h => absurd h (by simp [escAll])
  | y :: ys, h => by
    by_cases hy : y = c
    · rw [escAll, if_pos hy] at h
      rcases List.mem_append.mp h with hr | hrec
      · exact Or.inl hr
      · rcases mem_escAll hrec with hr | ⟨hm, hne⟩
        · exact Or.inl hr
        · exact Or.inr ⟨List.mem_cons_of_mem _ hm, hne⟩
    · rw [escAll, if_neg hy] at h
      rcases List.mem_cons.mp h with rfl | hrec
      · exact Or.inr ⟨List.mem_cons_self _ _, hy⟩
      · rcases mem_escAll hrec with hr | ⟨hm, hne⟩
        · exact Or.inl hr
        · exact Or.inr ⟨List.mem_cons_of_mem _ hm, hne⟩

/-- Helper: replacing a character that does not occur is the identity. -/
theorem escAll_of_not_mem {c : Char} {r l : List Char} (h : c ∉ l) :
    escAll c r l = l := by
  induction l with
  | nil => rfl
  | cons y ys ih =>
    have hy : ¬y = c := fun hy => h (by rw [← hy]; exact List.mem_cons_self _ _)
    rw [escAll, if_neg hy, ih (fun hm => h (List.mem_cons_of_mem _ hm))]

/-- Helper: no character of the sanitized text is one of the five
replaced characters — each replacement text consists only of `&`, `#`,
`;`, letters and digits. -/
theorem sanitize_no_special {l : List Char} {x : Char} (h : x ∈ sanitizeChars l) :
    isSpecial x = false := by
  unfold sanitizeChars at h
  have hall : ∀ m : List Char,
      m.all (fun y => !isSpecial y) = true → x ∈ m → isSpecial x = false := by
    intro m hm hx
    have := List.all_eq_true.mp hm x hx
    simpa using this
  rcases mem_escAll h with h47 | ⟨h, hne47⟩
  · exact hall _ (by decide) h47
  rcases mem_escAll h with h39 | ⟨h, hne39⟩
  · exact hall _ (by decide) h39
  rcases mem_escAll h with h34 | ⟨h, hne34⟩
  · exact hall _ (by decide) h34
  rcases mem_escAll h with h62 | ⟨h, hne62⟩
  · exact hall _ (by decide) h62
  rcases mem_escAll h with h60 | ⟨h, hne60⟩
  · exact hall _ (by decide) h60
  · simp [isSpecial, hne60, hne62, hne34, hne39, hne47]

/-- Helper: on text free of the five replaced characters the whole
replacement chain is the identity. -/
theorem sanitizeChars_of_no_special {m : List Char}
    (h : ∀ x ∈ m, isSpecial x = false) : sanitizeChars m = m := by
  have hx : ∀ n : Nat, isSpecial (Char.ofNat n) = true → Char.ofNat n ∉ m := by
    intro n hn hm
    rw [h _ hm] at hn
    exact Bool.false_ne_true hn
  unfold sanitizeChars
  rw [escAll_of_not_mem (hx 60 (by decide)), escAll_of_not_mem (hx 62 (by decide)),
    escAll_of_not_mem (hx 34 (by decide)), escAll_of_not_mem (hx 39 (by decide)),
    escAll_of_not_mem (hx 47 (by decide))]

/-- Helper: trimming only removes characters. -/
theorem mem_trimJS {l : List Char} {x : Char} (h : x ∈ trimJS l) : x ∈ l := by
  unfold trimJS at h
  rw [List.mem_reverse] at h
  have h1 := (List.dropWhile_sublist (l := (l.dropWhile isJSWhitespace).reverse)
    (p := isJSWhitespace)).subset h
  rw [List.mem_reverse] at h1
  exact (List.dropWhile_sublist (l := l) (p := isJSWhitespace)).subset h1

/-- Helper: `dropWhile` is idempotent. -/
theorem dropWhile_idem (p : Char → Bool) (l : List Char) :
    (l.dropWhile p).dropWhile p = l.dropWhile p := by
  induction l with
  | nil => rfl
  | cons y ys ih =>
    by_cases hy : p y = true
    · simp [List.dropWhile, hy, ih]
    · simp [List.dropWhile, hy]

/-- Helper: the first character surviving `dropWhile` falsifies the
predicate. -/
theorem dropWhile_head_false (p : Char → Bool) :
    ∀ (l : List Char) (b : Char) (bs : List Char),
      l.dropWhile p = b :: bs → p b = false := by
  intro l
  induction l with
  | nil => intro b bs h; exact absurd h (by simp)
  | cons y ys ih =>
    intro b bs h
    by_cases hy : p y = true
    · rw [List.dropWhile_cons, if_pos hy] at h
      exact ih b bs h
    · rw [List.dropWhile_cons, if_neg hy] at h
      have : y = b := (List.cons_eq_cons.mp h).1
      rw [← this]
      exact Bool.not_eq_true _ ▸ hy

/-- Helper: trimming an already-trimmed string is the identity. -/
theorem trimJS_idem (l : List Char) : trimJS (trimJS l) = trimJS l := by
  have hstep1 : (trimJS l).dropWhile isJSWhitespace = trimJS l := by
    rcases heq : trimJS l with _ | ⟨a, t⟩
    · rfl
    · have hpre : trimJS l <+: l.dropWhile isJSWhitespace := by
        unfold trimJS
        have hsuf : ((l.dropWhile isJSWhitespace).reverse.dropWhile isJSWhitespace)
            <:+ (l.dropWhile isJSWhitespace).reverse :=
          List.dropWhile_suffix _
        exact List.reverse_suffix.mp (by simpa using hsuf)
      rw [heq] at hpre
      obtain ⟨u, hu⟩ := hpre
      rcases hd : l.dropWhile isJSWhitespace with _ | ⟨b, bs⟩
      · rw [hd] at hu
        exact absurd hu (by simp)
      · rw [hd] at hu
        have hab : a = b := (List.cons_eq_cons.mp hu).1
        have hb : isJSWhitespace b = false := dropWhile_head_false _ l b bs hd
        rw [List.dropWhile_cons, hab, hb]
        simp
  have hstep2 : (trimJS l).reverse.dropWhile isJSWhitespace = (trimJS l).reverse := by
    have : (trimJS l).reverse
        = ((l.dropWhile isJSWhitespace).reverse).dropWhile isJSWhitespace := by
      unfold trimJS
      rw [List.reverse_reverse]
    rw [this]
    exact dropWhile_idem _ _
  have hun : trimJS (trimJS l)
      = (((trimJS l).dropWhile isJSWhitespace).reverse.dropWhile isJSWhitespace).reverse := rfl
  rw [hun, hstep1, hstep2, List.reverse_reverse]

/-- Claim C9: `sanitizeString` is idempotent — sanitizing an
already-sanitized string returns it unchanged, because no replacement
text contains any of the five replaced characters and trimming an
already-trimmed string is the identity. -/
theorem sanitizeString_idempotent (s : String) :
    sanitizeString (sanitizeString s) = sanitizeString s := by
  show String.mk (trimJS (sanitizeChars (trimJS (sanitizeChars s.data))))
      = String.mk (trimJS (sanitizeChars s.data))
  rw [sanitizeChars_of_no_special
    (fun x hx => sanitize_no_special (mem_trimJS hx)), trimJS_idem]

/-- Value of a non-empty run of decimal digits. -/
def digitsValue (l : List Char) : Nat :=
  l.foldl (fun a c => a * 10 + (c.toNat - 48)) 0

/-- Embedding of JavaScript `parseInt(s, 10)`: skip leading whitespace,
accept one optional sign (`-` is code point 45, `+` is 43), then read
the longest prefix of decimal digits, ignoring anything after it;
`none` models `NaN` (no digits found).  Values are exact integers; the
claims proved below do not depend on float rounding of huge inputs. -/
def parseInt (s : String) : Option Int :=
  let l := s.data.dropWhile isJSWhitespace
  let sign : Int × List Char :=
    match l with
    | c :: rest =>
      if c = Char.ofNat 45 then (-1, rest)
      else if c = Char.ofNat 43 then (1, rest) else (1, l)
    | [] => (1, l)
  let ds := sign.2.takeWhile Char.isDigit
  if ds.isEmpty then none else some (sign.1 * (digitsValue ds : Int))

/-- Embedding of the `page` transform of `paginationQuerySchema`
(common.schema.ts): `parseInt(val || '1', 10)`, and `1` when the result
is `NaN` or below `1`.  `none` models an absent query parameter; the
empty string is falsy, so it also falls back to `'1'`. -/
def parsePage (val : Option String) : Int :=
  let s := match val with
    | none => ("1")
    | some v => if v = ("") then ("1") else v
  match parseInt s with
  | none => 1
  | some parsed => if parsed < 1 then 1 else parsed

/-- Embedding of the `limit` transform of `paginationQuerySchema`:
`parseInt(val || '10', 10)`, `10` when the result is `NaN` or below
`1`, and otherwise `Math.min(parsed, 100)`. -/
def parseLimit (val : Option String) : Int :=
  let s := match val with
    | none => ("10")
    | some v => if v = ("") then ("10") else v
  match parseInt s with
  | none => 10
  | some parsed => if parsed < 1 then 10 else min parsed 100

/-- The parsed result of `paginationQuerySchema` on a query whose
`page` and `limit` parameters are each absent or an arbitrary string. -/
def paginationQuerySchema (page limit : Option String) : Int × Int :=
  (parsePage page, parseLimit limit)

/-- Helper: the parsed page is always at least `1`. -/
theorem parsePage_ge_one (x : Option String) : 1 ≤ parsePage x := by
  rcases x with _ | v
  · decide
  · by_cases he : v = ("")
    · subst he
      decide
    · simp only [parsePage, if_neg he]
      rcases hp : parseInt v with _ | p
      · simp [hp]
      · simp only [hp]
        split
        · omega
        · next hge =>
          omega

/-- Helper: the parsed limit is always between `1` and `100`. -/
theorem parseLimit_bounds (x : Option String) : 1 ≤ parseLimit x ∧ parseLimit x ≤ 100 := by
  rcases x with _ | v
  · decide
  · by_cases he : v = ("")
    · subst he
      decide
    · simp only [parseLimit, if_neg he]
      rcases hp : parseInt v with _ | p
      · simp [hp]
      · simp only [hp]
        split
        · omega
        · next hge =>
          refine ⟨le_min (by omega) (by decide), min_le_right _ _⟩

/-- Helper: a non-numeric page string falls back to `1`. -/
theorem parsePage_invalid (v : String) (hv : parseInt v = none) : parsePage (some v) = 1 := by
  by_cases he : v = ("")
  · subst he
    decide
  · simp [parsePage, if_neg he, hv]

/-- Helper: a non-numeric limit string falls back to `10`. -/
theorem parseLimit_invalid (v : String) (hv : parseInt v = none) : parseLimit (some v) = 10 := by
  by_cases he : v = ("")
  · subst he
    decide
  · simp [parseLimit, if_neg he, hv]

/-- Helper: a limit above `100` is clamped to `100`. -/
theorem parseLimit_clamp (v : String) (p : Int) (hv : parseInt v = some p) (h : 100 < p) :
    parseLimit (some v) = 100 := by
  have he : ¬v = ("") := by
    rintro rfl
    rw [show parseInt ("") = none from rfl] at hv
    exact Option.noConfusion hv
  simp only [parseLimit, if_neg he, hv]
  rw [if_neg (by omega), min_eq_right (by omega)]

/-- Claim C10: for every input accepted by `paginationQuerySchema`
(each parameter absent or an arbitrary string) the parsed result
satisfies `page ≥ 1` and `1 ≤ limit ≤ 100`; an absent or non-numeric
page yields `1`, an absent or non-numeric limit yields `10`, and a
limit above `100` is clamped to `100`. -/
theorem pagination_bounds (page limit : Option String) :
    1 ≤ (paginationQuerySchema page limit).1
    ∧ 1 ≤ (paginationQuerySchema page limit).2
    ∧ (paginationQuerySchema page limit).2 ≤ 100
    ∧ (page = none → (paginationQuerySchema page limit).1 = 1)
    ∧ (limit = none → (paginationQuerySchema page limit).2 = 10)
    ∧ (∀ v, page = some v → parseInt v = none → (paginationQuerySchema page limit).1 = 1)
    ∧ (∀ v, limit = some v → parseInt v = none → (paginationQuerySchema page limit).2 = 10)
    ∧ (∀ v p, limit = some v → parseInt v = some p → 100 < p →
        (paginationQuerySchema page limit).2 = 100) := by
  refine ⟨parsePage_ge_one page, (parseLimit_bounds limit).1, (parseLimit_bounds limit).2,
    ?_, ?_, ?_, ?_, ?_⟩
  · rintro rfl
    rfl
  · rintro rfl
    rfl
  · rintro v rfl hv
    exact parsePage_invalid v hv
  · rintro v rfl hv
    exact parseLimit_invalid v hv
  · rintro v p rfl hv hgt
    exact parseLimit_clamp v p hv hgt

/-- Witness for C10: the non-numeric page string `abc` yields page `1`,
and the limit string `500` is clamped to `100`. -/
theorem pagination_bounds_witness :
    (paginationQuerySchema (some ("abc")) (some ("500"))).1 = 1
    ∧ (paginationQuerySchema (some ("abc")) (some ("500"))).2 = 100 :=
  ⟨(pagination_bounds (some ("abc")) (some ("500"))).2.2.2.2.2.1 ("abc") rfl rfl,
   (pagination_bounds (some ("abc")) (some ("500"))).2.2.2.2.2.2.2 ("500") 500 rfl rfl
     (by omega)⟩
